import Mathlib

/- Verification of the record-store console manager (src/main.c) against its
   design specification.

   Modelling conventions:
   * C strings are `List Char`: the bytes of a NUL-terminated buffer up to,
     and not including, the terminator.
   * The database file is a dense list of fixed-width records together with
     the current file offset, measured in records (every access in the
     program is record aligned).
   * Allocation, release and zeroing of the heap buffers that the design's
     ownership contract speaks about (the per-iteration line buffer, the two
     scratch entry buffers, the username and password buffers) are recorded
     as an explicit event trace. -/

def SIZE : Nat := 16

def ADMIN_UID : Nat := 0

def USER_UID : Nat := 1

/-- The whitespace characters recognised by C isspace (used by sscanf and
    atoi). -/
def isSpaceC (c : Char) : Bool :=
  c == ' ' || c == '\t' || c == '\n' || c == '\r' || c == '\x0b' || c == '\x0c'

/-- Helper for `tokens`: accumulates the current token (reversed). -/
def tokAux : List Char → List Char → List (List Char)
  | [], acc => if acc.isEmpty then [] else [acc.reverse]
  | c :: rest, acc =>
      if isSpaceC c then
        if acc.isEmpty then tokAux rest [] else acc.reverse :: tokAux rest []
      else tokAux rest (c :: acc)

/-- The maximal non-whitespace tokens of a line, in order. -/
def tokens (s : List Char) : List (List Char) := tokAux s []

/-- Models sscanf(line, "%*s %s", dst): the scan succeeds (returns 1) exactly
    when the line has a second whitespace-delimited token, which is then the
    string stored into dst. -/
def sscanf2 (s : List Char) : Option (List Char) := (tokens s)[1]?

/-- Decimal-digit accumulator for atoi; stops at the first non-digit. -/
def digitsAcc : List Char → Nat → Nat
  | [], acc => acc
  | c :: rest, acc =>
      if c.isDigit then digitsAcc rest (acc * 10 + (c.toNat - 48)) else acc

/-- Reduction of a mathematical integer into the signed 32-bit range, as the
    conversion to int does on the reference platform. -/
def toInt32 (v : Int) : Int :=
  let m := v % 4294967296
  if m < 2147483648 then m else m - 4294967296

/-- atoi(line): skip leading whitespace, optional sign, then decimal digits;
    an input with no digits yields 0. -/
def atoi (s : List Char) : Int :=
  let s1 := s.dropWhile isSpaceC
  match s1 with
  | '-' :: r => toInt32 (-(digitsAcc r 0 : Int))
  | '+' :: r => toInt32 ((digitsAcc r 0 : Int))
  | _ => toInt32 ((digitsAcc s1 0 : Int))

/-- strncmp(a, b, n) == 0 for NUL-terminated C strings: comparison stops at
    the first difference, at a terminator, or after n bytes. -/
def strncmpEq : Nat → List Char → List Char → Bool
  | 0, _, _ => true
  | _ + 1, [], [] => true
  | _ + 1, [], _ :: _ => false
  | _ + 1, _ :: _, [] => false
  | n + 1, a :: as, b :: bs => a == b && strncmpEq n as bs

/-- streq(a, b) := strncmp(a, b, SIZE) == 0  (main.c line 37). -/
def streq (a b : List Char) : Bool := strncmpEq SIZE a b

/-- The body of fgets(buf, n+1, stream): store at most n characters, stopping
    after a newline (which is kept); returns the characters stored and the
    rest of the stream. -/
def fgetsAux : Nat → List Char → List Char × List Char
  | 0, s => ([], s)
  | _ + 1, [] => ([], [])
  | n + 1, c :: rest =>
      if c == '\n' then ([c], rest)
      else
        let r := fgetsAux n rest
        (c :: r.1, r.2)

/-- fgets with the SIZE-byte buffers used throughout main.c: stores at most
    SIZE - 1 characters. -/
def fgets16 (s : List Char) : List Char × List Char := fgetsAux (SIZE - 1) s

/-- One fixed-width database record (main.c lines 55-58): an 8-bit id and a
    name of capacity SIZE - 1 bytes. -/
structure DBEntry where
  id : Nat
  name : List Char
  deriving DecidableEq

/-- The database file: its dense record content and the current file offset,
    in records. -/
structure File where
  data : List DBEntry
  pos : Nat
  deriving DecidableEq

def emptyFile : File := { data := [], pos := 0 }

/-- The heap buffers whose lifecycle the design constrains. -/
inductive Buf where
  | line
  | qentry
  | ientry
  | username
  | password
  deriving DecidableEq

/-- Heap events on those buffers: allocation, release, zeroing by memset. -/
inductive Ev where
  | alloc (b : Buf)
  | free (b : Buf)
  | zero (b : Buf)
  deriving DecidableEq

def freeCount (evs : List Ev) (b : Buf) : Nat :=
  evs.countP (fun e => e == Ev.free b)

def allocCount (evs : List Ev) (b : Buf) : Nat :=
  evs.countP (fun e => e == Ev.alloc b)

/-- Event x occurs at a strictly earlier position than event y in the
    trace. -/
def evBefore (x y : Ev) (evs : List Ev) : Prop :=
  ∃ i j : Nat, i < j ∧ evs[i]? = some x ∧ evs[j]? = some y

/-- insert_into_db (main.c lines 63-80): parse the entry name as the second
    token; on failure report and return with no state change.  Otherwise
    allocate a scratch entry, give it id = (end-of-file byte offset
    / SIZE) truncated to 8 bits, copy the name truncated to SIZE - 1 bytes,
    write the record at the end of the file and free the scratch entry.
    The write is modelled as persisting in full (its failure branch only
    prints a message). -/
def insert_into_db (line : List Char) (f : File) : File × List Ev :=
  match sscanf2 line with
  | none => (f, [])
  | some nm =>
      let endBytes := SIZE * f.data.length
      let f1 : File := { f with pos := f.data.length }
      let e : DBEntry := { id := endBytes / SIZE % 256, name := nm.take (SIZE - 1) }
      let f2 : File := { data := f1.data.take f1.pos ++ [e] ++ f1.data.drop (f1.pos + 1),
                         pos := f1.pos + 1 }
      (f2, [Ev.alloc Buf.ientry, Ev.free Buf.ientry])

/-- drop_db (main.c lines 82-93): read one line of confirmation into a stack
    buffer with fgets; truncate the file to zero length only when the first
    character stored is y, otherwise abort.  At end of input fgets stores
    nothing and the stale stack byte is modelled as non-affirmative.  Returns
    the file state and the unconsumed remainder of the input stream. -/
def drop_db (stdin : List Char) (f : File) : File × List Char :=
  let r := fgets16 stdin
  if r.1.head? = some 'y' then ({ f with data := [] }, r.2)
  else (f, r.2)

/-- The scan loop of select_from_db (main.c lines 119-125), run n times: a
    read in range yields the record at the offset and advances it; a read at
    end of file leaves the entry buffer and the offset unchanged. -/
def selectLoop (p : DBEntry → Bool) (f : File) (buf : DBEntry) :
    Nat → List DBEntry × File × DBEntry
  | 0 => ([], f, buf)
  | n + 1 =>
      let step : DBEntry × File :=
        match f.data[f.pos]? with
        | some e => (e, { f with pos := f.pos + 1 })
        | none => (buf, f)
      let rest := selectLoop p step.2 step.1 n
      (if p step.1 then step.1 :: rest.1 else rest.1, rest.2)

/-- select_from_db (main.c lines 98-130): buf0 is the content of the freshly
    malloc-ed scratch entry (uninitialized, hence a parameter).  On a line
    with no query token the handler frees the caller's line buffer and its
    scratch entry and returns (lines 102-107).  Otherwise it seeks to the
    end to count the records, seeks back to the start, scans every record and
    collects those matching the query (or all of them when the query is *),
    then frees the scratch entry.  Returns the file state, the rows printed
    and the heap-event trace. -/
def select_from_db (line : List Char) (buf0 : DBEntry) (f : File) :
    File × List DBEntry × List Ev :=
  match sscanf2 line with
  | none => (f, [], [Ev.alloc Buf.qentry, Ev.free Buf.line, Ev.free Buf.qentry])
  | some q =>
      let matchAll := streq q ['*']
      let fa : File := { f with pos := f.data.length }
      let numEntries := SIZE * f.data.length / SIZE
      let f1 : File := { fa with pos := 0 }
      let r := selectLoop (fun e => matchAll || streq e.name q) f1 buf0 numEntries
      (r.2.1, r.1, [Ev.alloc Buf.qentry, Ev.free Buf.qentry])

def userStr : List Char := ['u', 's', 'e', 'r']

def adminStr : List Char := ['a', 'd', 'm', 'i', 'n']

/-- A SIZE-byte buffer after memset(-, 0, SIZE). -/
def zeroBuf16 : List Char := List.replicate SIZE (Char.ofNat 0)

/-- line[strcspn(line, CRLF)] = 0: truncate the string at its first carriage
    return or line feed. -/
def stripCRLF (s : List Char) : List Char :=
  s.takeWhile (fun c => !(c == '\r' || c == '\n'))

/-- Result of change_user: the uid after the call, the heap-event trace, the
    exit status when the call terminates the process, the content of the
    password buffer at the moment it is freed (none when it is never freed),
    and the content of the caller's line buffer when the handler returns. -/
structure CUResult where
  uid : Nat
  events : List Ev
  exited : Option Nat
  pwBufFinal : Option (List Char)
  lineBufFinal : List Char
  deriving DecidableEq

/-- change_user (main.c lines 132-183).  line is the content of the caller's
    line buffer, typed the console stream offered to the password prompt,
    pwFile the content of password.txt (none when the open fails, in which
    case the process exits with status 1 before any free).  The reference
    secret is the first SIZE bytes read from the file; per the deployment
    precondition it holds at most SIZE - 1 meaningful bytes, so the bounded
    comparison streq coincides with equality against it.  On the admin path
    the handler reuses the line buffer for the typed secret (fgets), strips
    it at the first CR/LF, compares, then memsets both the password buffer
    and the line buffer to zero before freeing password and username.  The
    handler never frees the line buffer itself. -/
def change_user (line typed : List Char) (pwFile : Option (List Char)) (uid : Nat) :
    CUResult :=
  match sscanf2 line with
  | none =>
      { uid := uid, events := [Ev.alloc Buf.username, Ev.free Buf.username],
        exited := none, pwBufFinal := none, lineBufFinal := line }
  | some username =>
      if streq username userStr then
        { uid := USER_UID, events := [Ev.alloc Buf.username, Ev.free Buf.username],
          exited := none, pwBufFinal := none, lineBufFinal := line }
      else if !(streq username adminStr) then
        { uid := uid, events := [Ev.alloc Buf.username, Ev.free Buf.username],
          exited := none, pwBufFinal := none, lineBufFinal := line }
      else
        match pwFile with
        | none =>
            { uid := uid, events := [Ev.alloc Buf.username, Ev.alloc Buf.password],
              exited := some 1, pwBufFinal := none, lineBufFinal := line }
        | some pw =>
            let password := pw.take SIZE
            let line1 := (fgets16 typed).1
            let line2 := stripCRLF line1
            let newUid := if streq line2 password then ADMIN_UID else uid
            { uid := newUid,
              events := [Ev.alloc Buf.username, Ev.alloc Buf.password,
                         Ev.zero Buf.password, Ev.zero Buf.line,
                         Ev.free Buf.password, Ev.free Buf.username],
              exited := none,
              pwBufFinal := some zeroBuf16,
              lineBufFinal := zeroBuf16 }

/-- The console input offered to one dispatcher iteration: the stream read
    into the line buffer, the stream offered to the password prompt, the
    content of password.txt (none = open failure), the stream offered to the
    wipe confirmation, and the uninitialized content of the malloc-ed query
    scratch entry. -/
structure HCInput where
  line : List Char
  typed : List Char
  pwFile : Option (List Char)
  confirm : List Char
  qbuf0 : DBEntry
  deriving DecidableEq

/-- Result of one dispatcher iteration: uid and file after the call, the rows
    printed by a query, the heap-event trace, the exit status when the
    iteration terminates the process, and the contents of the line and
    password buffers at the moment they are freed (none when not freed). -/
structure HCResult where
  uid : Nat
  file : File
  rows : List DBEntry
  events : List Ev
  exited : Option Nat
  lineBufAtFree : Option (List Char)
  pwBufAtFree : Option (List Char)
  deriving DecidableEq

/-- handle_choice (main.c lines 202-229): malloc the per-iteration line
    buffer, fgets one line into it, parse the selector with atoi and route:
    1 exits the process with status 0 (the buffer is not freed); 2 runs
    change_user; 3 runs select_from_db; 4 and 5 run insert_into_db and
    drop_db only when uid is ADMIN_UID; every other selector falls through.
    Unless the process exited, the dispatcher then frees the line buffer
    unconditionally. -/
def handle_choice (inp : HCInput) (uid : Nat) (f : File) : HCResult :=
  let lineBuf := (fgets16 inp.line).1
  let choice := atoi lineBuf
  if choice = 1 then
    { uid := uid, file := f, rows := [], events := [Ev.alloc Buf.line],
      exited := some 0, lineBufAtFree := none, pwBufAtFree := none }
  else if choice = 2 then
    let r := change_user lineBuf inp.typed inp.pwFile uid
    match r.exited with
    | some c =>
        { uid := r.uid, file := f, rows := [],
          events := Ev.alloc Buf.line :: r.events,
          exited := some c, lineBufAtFree := none, pwBufAtFree := r.pwBufFinal }
    | none =>
        { uid := r.uid, file := f, rows := [],
          events := Ev.alloc Buf.line :: r.events ++ [Ev.free Buf.line],
          exited := none, lineBufAtFree := some r.lineBufFinal,
          pwBufAtFree := r.pwBufFinal }
  else if choice = 3 then
    let r := select_from_db lineBuf inp.qbuf0 f
    { uid := uid, file := r.1, rows := r.2.1,
      events := Ev.alloc Buf.line :: r.2.2 ++ [Ev.free Buf.line],
      exited := none, lineBufAtFree := some lineBuf, pwBufAtFree := none }
  else if choice = 4 then
    if uid = ADMIN_UID then
      let r := insert_into_db lineBuf f
      { uid := uid, file := r.1, rows := [],
        events := Ev.alloc Buf.line :: r.2 ++ [Ev.free Buf.line],
        exited := none, lineBufAtFree := some lineBuf, pwBufAtFree := none }
    else
      { uid := uid, file := f, rows := [],
        events := [Ev.alloc Buf.line, Ev.free Buf.line],
        exited := none, lineBufAtFree := some lineBuf, pwBufAtFree := none }
  else if choice = 5 then
    if uid = ADMIN_UID then
      let r := drop_db inp.confirm f
      { uid := uid, file := r.1, rows := [],
        events := [Ev.alloc Buf.line, Ev.free Buf.line],
        exited := none, lineBufAtFree := some lineBuf, pwBufAtFree := none }
    else
      { uid := uid, file := f, rows := [],
        events := [Ev.alloc Buf.line, Ev.free Buf.line],
        exited := none, lineBufAtFree := some lineBuf, pwBufAtFree := none }
  else
    { uid := uid, file := f, rows := [],
      events := [Ev.alloc Buf.line, Ev.free Buf.line],
      exited := none, lineBufAtFree := some lineBuf, pwBufAtFree := none }

/-- main (main.c lines 238-241): failure to open database.db at startup exits
    the process with status 1; on success the dispatcher loop is entered and
    never returns. -/
def main_open (ok : Bool) : Option Nat := if ok then none else some 1

/-- A sequence of inserts: fold insert_into_db over a list of command
    lines. -/
def insertSeq (ls : List (List Char)) (f : File) : File :=
  ls.foldl (fun g l => (insert_into_db l g).1) f

/-- strncmp of a string with itself is 0 at every bound. -/
theorem strncmpEq_self : ∀ (n : Nat) (a : List Char), strncmpEq n a a = true := by
  intro n
  induction n with
  | zero => intro a; rfl
  | succ n ih =>
      intro a
      cases a with
      | nil => rfl
      | cons c as => simp [strncmpEq, ih]

/-- When the right operand is shorter than the bound, the bounded comparison
    is plain string equality. -/
theorem strncmpEq_iff_eq : ∀ (n : Nat) (a b : List Char), b.length < n →
    (strncmpEq n a b = true ↔ a = b) := by
  intro n
  induction n with
  | zero => intro a b hb; exact absurd hb (Nat.not_lt_zero _)
  | succ n ih =>
      intro a b hb
      cases a with
      | nil =>
          cases b with
          | nil => simp [strncmpEq]
          | cons d bs => simp [strncmpEq]
      | cons c as =>
          cases b with
          | nil => simp [strncmpEq]
          | cons d bs =>
              have hb' : bs.length < n := by
                simp only [List.length_cons] at hb
                omega
              simp [strncmpEq, Bool.and_eq_true, beq_iff_eq, ih as bs hb']

/-- The element right after a known chunk of an append. -/
theorem getElem?_append_len {α : Type} :
    ∀ (pre : List α) (e : α) (suf : List α), (pre ++ e :: suf)[pre.length]? = some e := by
  intro pre
  induction pre with
  | nil => intro e suf; simp
  | cons a l ih => intro e suf; simpa using ih e suf

/-- The scan loop never changes the file content. -/
theorem selectLoop_data (p : DBEntry → Bool) :
    ∀ (n : Nat) (f : File) (buf : DBEntry), (selectLoop p f buf n).2.1.data = f.data := by
  intro n
  induction n with
  | zero => intro f buf; rfl
  | succ n ih =>
      intro f buf
      cases h : f.data[f.pos]? with
      | some e => simp [selectLoop, h, ih]
      | none => simp [selectLoop, h, ih]

/-- Run from offset pre.length for suf.length steps, the scan loop yields
    exactly the matching records of suf, in order. -/
theorem selectLoop_rows (p : DBEntry → Bool) :
    ∀ (suf pre : List DBEntry) (buf : DBEntry),
    (selectLoop p { data := pre ++ suf, pos := pre.length } buf suf.length).1 =
      suf.filter p := by
  intro suf
  induction suf with
  | nil => intro pre buf; rfl
  | cons e rest ih =>
      intro pre buf
      have hget : (pre ++ e :: rest)[pre.length]? = some e := getElem?_append_len pre e rest
      have h2 := ih (pre ++ [e]) e
      have h3 : ((pre ++ [e]) ++ rest : List DBEntry) = pre ++ e :: rest := by simp
      have h4 : (pre ++ [e]).length = pre.length + 1 := by simp
      rw [h3, h4] at h2
      simp [selectLoop, hget, h2, List.filter_cons]

/-- select_from_db leaves the file content unchanged on every input. -/
theorem select_data (line : List Char) (buf0 : DBEntry) (f : File) :
    (select_from_db line buf0 f).1.data = f.data := by
  cases h : sscanf2 line with
  | none => simp [select_from_db, h]
  | some q => simp [select_from_db, h, selectLoop_data]

/-- The rows printed by a well-formed query are the records matching it. -/
theorem select_rows (line q : List Char) (buf0 : DBEntry) (f : File)
    (h : sscanf2 line = some q) :
    (select_from_db line buf0 f).2.1 =
      f.data.filter (fun e => streq q ['*'] || streq e.name q) := by
  have hnum : SIZE * f.data.length / SIZE = f.data.length :=
    Nat.mul_div_cancel_left _ (by norm_num [SIZE])
  have hrows := selectLoop_rows (fun e => streq q ['*'] || streq e.name q) f.data [] buf0
  simp only [List.nil_append, List.length_nil] at hrows
  simp [select_from_db, h, hnum, hrows]

/-- A successful insert appends exactly one record, whose id is the pre-append
    record count reduced to 8 bits and whose name is the parsed token
    truncated to SIZE - 1 bytes. -/
theorem insert_valid (line nm : List Char) (f : File) (h : sscanf2 line = some nm) :
    (insert_into_db line f).1 =
      { data := f.data ++ [{ id := f.data.length % 256, name := nm.take (SIZE - 1) }],
        pos := f.data.length + 1 } := by
  have hnum : SIZE * f.data.length / SIZE = f.data.length :=
    Nat.mul_div_cancel_left _ (by norm_num [SIZE])
  have hdrop : f.data.drop (f.data.length + 1) = [] := List.drop_eq_nil_of_le (by omega)
  simp [insert_into_db, h, hnum, hdrop, List.take_length]

/-- Unfolding one step of insertSeq. -/
theorem insertSeq_cons (l : List Char) (ls : List (List Char)) (f : File) :
    insertSeq (l :: ls) f = insertSeq ls (insert_into_db l f).1 := rfl

/-- A run of successful inserts grows the store by one record each. -/
theorem insertSeq_length : ∀ (ls : List (List Char)) (f : File),
    (∀ l ∈ ls, (sscanf2 l).isSome) →
    (insertSeq ls f).data.length = f.data.length + ls.length := by
  intro ls
  induction ls with
  | nil => intro f hv; simp [insertSeq]
  | cons l ls ih =>
      intro f hv
      obtain ⟨nm, hnm⟩ := Option.isSome_iff_exists.mp (hv l (List.mem_cons_self _ _))
      rw [insertSeq_cons, ih _ (fun x hx => hv x (List.mem_cons_of_mem _ hx)),
        insert_valid l nm f hnm]
      simp
      omega

/-- Inserts never disturb records already in the store. -/
theorem insertSeq_old : ∀ (ls : List (List Char)) (f : File),
    (∀ l ∈ ls, (sscanf2 l).isSome) → ∀ k : Nat, k < f.data.length →
    (insertSeq ls f).data[k]? = f.data[k]? := by
  intro ls
  induction ls with
  | nil => intro f hv k hk; rfl
  | cons l ls ih =>
      intro f hv k hk
      obtain ⟨nm, hnm⟩ := Option.isSome_iff_exists.mp (hv l (List.mem_cons_self _ _))
      rw [insertSeq_cons, ih _ (fun x hx => hv x (List.mem_cons_of_mem _ hx)) k
        (by rw [insert_valid l nm f hnm]; simp; omega), insert_valid l nm f hnm]
      simp [List.getElem?_append_left hk]

/-- After a run of successful inserts, the record at each new position j
    carries id j mod 256. -/
theorem insertSeq_new : ∀ (ls : List (List Char)) (f : File),
    (∀ l ∈ ls, (sscanf2 l).isSome) → ∀ j : Nat,
    f.data.length ≤ j → j < f.data.length + ls.length →
    ∃ e : DBEntry, (insertSeq ls f).data[j]? = some e ∧ e.id = j % 256 := by
  intro ls
  induction ls with
  | nil =>
      intro f hv j h1 h2
      simp only [List.length_nil, Nat.add_zero] at h2
      exact absurd h1 (Nat.not_le.mpr h2)
  | cons l ls ih =>
      intro f hv j h1 h2
      have hvt : ∀ x ∈ ls, (sscanf2 x).isSome := fun x hx => hv x (List.mem_cons_of_mem _ hx)
      obtain ⟨nm, hnm⟩ := Option.isSome_iff_exists.mp (hv l (List.mem_cons_self _ _))
      have hf' := insert_valid l nm f hnm
      have hlen' : (insert_into_db l f).1.data.length = f.data.length + 1 := by
        rw [hf']; simp
      by_cases hj : j < f.data.length + 1
      · have hje : j = f.data.length := by omega
        subst hje
        refine ⟨{ id := f.data.length % 256, name := nm.take (SIZE - 1) }, ?_, rfl⟩
        rw [insertSeq_cons, insertSeq_old ls _ hvt f.data.length (by rw [hlen']; omega), hf']
        exact getElem?_append_len f.data _ []
      · obtain ⟨e, he, hid⟩ := ih (insert_into_db l f).1 hvt j (by rw [hlen']; omega)
          (by rw [hlen']; simp at h2; omega)
        exact ⟨e, by rw [insertSeq_cons]; exact he, hid⟩

/-- Bounded comparison against a short reference string is equality. -/
theorem streq_true_iff (u v : List Char) (hlen : v.length < SIZE) :
    streq u v = true ↔ u = v := strncmpEq_iff_eq SIZE u v hlen

/-- Bounded comparison against a short reference string fails on any other
    string. -/
theorem streq_eq_false_of_ne (u v : List Char) (hlen : v.length < SIZE) (hne : u ≠ v) :
    streq u v = false := by
  cases hb : streq u v with
  | false => rfl
  | true => exact absurd ((streq_true_iff u v hlen).mp hb) hne

/-- One unfolding step of fgets on a SIZE-byte buffer. -/
theorem fgets16_cons (c : Char) (rest : List Char) :
    fgets16 (c :: rest) =
      if c == '\n' then ([c], rest)
      else (c :: (fgetsAux (SIZE - 2) rest).1, (fgetsAux (SIZE - 2) rest).2) := rfl

/-- fgets always stores the first character of a nonempty stream first. -/
theorem fgets16_head (c : Char) (rest : List Char) :
    (fgets16 (c :: rest)).1.head? = some c := by
  rw [fgets16_cons]
  by_cases h : (c == '\n') = true
  · simp [h]
  · simp [h]

/-- change_user terminates the process only with status 1, and does so
    exactly when the requested identity is the administrative one and the
    secret file cannot be opened. -/
theorem change_user_exited (line typed : List Char) (pwFile : Option (List Char))
    (uid : Nat) :
    ((change_user line typed pwFile uid).exited = some 1 ↔
      (sscanf2 line = some adminStr ∧ pwFile = none)) ∧
    ((change_user line typed pwFile uid).exited = none ∨
      (change_user line typed pwFile uid).exited = some 1) := by
  cases h : sscanf2 line with
  | none => simp [change_user, h]
  | some u =>
      by_cases h1 : streq u userStr = true
      · have hu : u = userStr := (streq_true_iff u userStr (by decide)).mp h1
        subst hu
        simp [change_user, h, h1]
        exact fun he => absurd he (by decide)
      · by_cases h2 : streq u adminStr = true
        · have hu : u = adminStr := (streq_true_iff u adminStr (by decide)).mp h2
          subst hu
          cases pwFile with
          | none => simp [change_user, h, h1, h2]
          | some pw => simp [change_user, h, h1, h2]
        · have hu : u ≠ adminStr := fun he =>
            h2 (by rw [he]; exact strncmpEq_self SIZE adminStr)
          simp [change_user, h, h1, h2]
          exact fun he => absurd he hu

/-- C1: the spec requires the per-iteration line buffer to be released
    exactly once per iteration, only by the dispatcher.  Evaluating the code
    at the input 3 followed by a newline (query selector with no query
    argument) shows the handler select_from_db freeing the line buffer on
    its invalid-input branch (main.c line 104) and the dispatcher freeing it
    again (line 228): two releases of the same buffer in one iteration, the
    double free the program's own header documents as its bug. -/
theorem c1_line_buffer_double_free_eval :
    (handle_choice
      { line := ['3', '\n'], typed := [], pwFile := none, confirm := [],
        qbuf0 := { id := 0, name := [] } } USER_UID emptyFile).events =
      [Ev.alloc Buf.line, Ev.alloc Buf.qentry, Ev.free Buf.line, Ev.free Buf.qentry,
       Ev.free Buf.line] ∧
    freeCount (handle_choice
      { line := ['3', '\n'], typed := [], pwFile := none, confirm := [],
        qbuf0 := { id := 0, name := [] } } USER_UID emptyFile).events Buf.line = 2 := by
  decide

/-- C2: after any run of successful inserts into an initially empty store,
    the record at position k (the (k+1)-st inserted) has id k mod 256 — the
    id is the pre-append file length over the record width, truncated to
    8 bits, by the definition of insert_into_db — and a run of 257 inserts
    makes the 257th record's id collide with the first record's id 0. -/
theorem c2_insert_id_wraparound (ls : List (List Char))
    (hv : ∀ l ∈ ls, (sscanf2 l).isSome) :
    (∀ k : Nat, k < ls.length →
      ∃ e : DBEntry, (insertSeq ls emptyFile).data[k]? = some e ∧ e.id = k % 256) ∧
    (ls.length = 257 →
      ∃ e0 e256 : DBEntry, (insertSeq ls emptyFile).data[0]? = some e0 ∧
        (insertSeq ls emptyFile).data[256]? = some e256 ∧ e0.id = e256.id ∧ e0.id = 0) := by
  have h0 : ∀ k : Nat, k < ls.length →
      ∃ e : DBEntry, (insertSeq ls emptyFile).data[k]? = some e ∧ e.id = k % 256 :=
    fun k hk => insertSeq_new ls emptyFile hv k (by simp [emptyFile])
      (by simpa [emptyFile] using hk)
  refine ⟨h0, fun h257 => ?_⟩
  obtain ⟨e0, he0, hid0⟩ := h0 0 (by omega)
  obtain ⟨e1, he1, hid1⟩ := h0 256 (by omega)
  exact ⟨e0, e1, he0, he1, by rw [hid0, hid1], by rw [hid0]⟩

/-- C2 witness: 257 concrete inserts of the line 4-space-a. -/
theorem c2_insert_id_wraparound_witness :
    (∀ l ∈ List.replicate 257 ['4', ' ', 'a'], (sscanf2 l).isSome) ∧
    ((∀ k : Nat, k < (List.replicate 257 ['4', ' ', 'a']).length →
      ∃ e : DBEntry,
        (insertSeq (List.replicate 257 ['4', ' ', 'a']) emptyFile).data[k]? = some e ∧
        e.id = k % 256) ∧
    ((List.replicate 257 ['4', ' ', 'a']).length = 257 →
      ∃ e0 e256 : DBEntry,
        (insertSeq (List.replicate 257 ['4', ' ', 'a']) emptyFile).data[0]? = some e0 ∧
        (insertSeq (List.replicate 257 ['4', ' ', 'a']) emptyFile).data[256]? = some e256 ∧
        e0.id = e256.id ∧ e0.id = 0)) :=
  ⟨fun l hl => by rw [List.eq_of_mem_replicate hl]; decide,
   c2_insert_id_wraparound (List.replicate 257 ['4', ' ', 'a'])
     (fun l hl => by rw [List.eq_of_mem_replicate hl]; decide)⟩

/-- C5 counterexample: the claim says the wipe confirmation reads exactly one
    character.  On the concrete input stream n, o, newline the confirmation
    read consumes all three characters (the remainder of the stream is
    empty), not one; the store is still left unchanged. -/
theorem c5_confirmation_consumes_a_line :
    (drop_db ['n', 'o', '\n'] emptyFile).2 = [] ∧
    ['n', 'o', '\n'].length - (drop_db ['n', 'o', '\n'] emptyFile).2.length = 3 ∧
    (drop_db ['n', 'o', '\n'] emptyFile).1 = emptyFile := by
  decide

/-- C5 amended: the wipe confirmation reads one line of input (fgets, at most
    SIZE - 1 characters) and examines only its first character: the store is
    truncated to zero length exactly when that first character is y, and any
    other input — the empty stream included — leaves the store unchanged. -/
theorem c5_wipe_first_char_decides (stdin : List Char) (f : File) :
    (stdin.head? = some 'y' →
      (drop_db stdin f).1.data = [] ∧ (drop_db stdin f).1.pos = f.pos) ∧
    (stdin.head? ≠ some 'y' → (drop_db stdin f).1 = f) ∧
    (drop_db stdin f).2 = (fgets16 stdin).2 := by
  refine ⟨?_, ?_, ?_⟩
  · intro hy
    cases stdin with
    | nil => exact absurd hy (by simp)
    | cons c rest =>
        have hc : c = 'y' := by simpa using hy
        subst hc
        have hcond : (fgets16 ('y' :: rest)).1.head? = some 'y' := fgets16_head 'y' rest
        simp [drop_db, hcond]
  · intro hn
    cases stdin with
    | nil => simp [drop_db, fgets16, fgetsAux]
    | cons c rest =>
        have hc : c ≠ 'y' := fun he => hn (by simp [he])
        have hcond : ¬(fgets16 (c :: rest)).1.head? = some 'y' := by
          rw [fgets16_head c rest]
          simpa using hc
        simp [drop_db, hcond]
  · rw [drop_db]
    split
    · rfl
    · rfl

/-- C5 witness: affirmative input y wipes; input n aborts. -/
theorem c5_wipe_first_char_decides_witness :
    ((['y', '\n'] : List Char).head? = some 'y' ∧
      (drop_db ['y', '\n'] { data := [{ id := 0, name := ['a'] }], pos := 1 }).1.data = [] ∧
      (drop_db ['y', '\n'] { data := [{ id := 0, name := ['a'] }], pos := 1 }).1.pos = 1) ∧
    ((['n', '\n'] : List Char).head? ≠ some 'y' ∧
      (drop_db ['n', '\n'] { data := [{ id := 0, name := ['a'] }], pos := 1 }).1 =
        { data := [{ id := 0, name := ['a'] }], pos := 1 }) :=
  ⟨⟨by decide,
    (c5_wipe_first_char_decides ['y', '\n'] { data := [{ id := 0, name := ['a'] }], pos := 1 }).1
      (by decide)⟩,
   ⟨by decide,
    (c5_wipe_first_char_decides ['n', '\n'] { data := [{ id := 0, name := ['a'] }], pos := 1 }).2.1
      (by decide)⟩⟩

/-- C10 counterexample: on the control path where the requested identity is
    admin and the secret file fails to open, change_user exits the process
    having allocated the username buffer (and the password buffer) without
    freeing either — the username buffer is not freed exactly once on that
    path. -/
theorem c10_username_leak_on_pw_open_failure :
    (change_user ['2', ' ', 'a', 'd', 'm', 'i', 'n'] [] none USER_UID).exited = some 1 ∧
    allocCount (change_user ['2', ' ', 'a', 'd', 'm', 'i', 'n'] [] none USER_UID).events
      Buf.username = 1 ∧
    freeCount (change_user ['2', ' ', 'a', 'd', 'm', 'i', 'n'] [] none USER_UID).events
      Buf.username = 0 ∧
    allocCount (change_user ['2', ' ', 'a', 'd', 'm', 'i', 'n'] [] none USER_UID).events
      Buf.password = 1 ∧
    freeCount (change_user ['2', ' ', 'a', 'd', 'm', 'i', 'n'] [] none USER_UID).events
      Buf.password = 0 := by
  decide

/-- C10 amended: on every control path through change_user that returns to
    the dispatcher, the username buffer is allocated and freed exactly once
    and the password buffer is freed exactly once when allocated (never
    more than once); on the secret-file-open-failure path the process exits
    and neither internal buffer is freed.  On every path, returning or not,
    the handler never frees the caller's line buffer. -/
theorem c10_change_user_release_discipline (line typed : List Char)
    (pwFile : Option (List Char)) (uid : Nat) :
    ((change_user line typed pwFile uid).exited = none →
      allocCount (change_user line typed pwFile uid).events Buf.username = 1 ∧
      freeCount (change_user line typed pwFile uid).events Buf.username = 1 ∧
      allocCount (change_user line typed pwFile uid).events Buf.password =
        freeCount (change_user line typed pwFile uid).events Buf.password ∧
      freeCount (change_user line typed pwFile uid).events Buf.password ≤ 1) ∧
    freeCount (change_user line typed pwFile uid).events Buf.line = 0 := by
  cases h : sscanf2 line with
  | none =>
      simp only [change_user, h]
      exact ⟨fun _ => by decide, by decide⟩
  | some u =>
      by_cases h1 : streq u userStr = true
      · simp only [change_user, h, h1, if_pos]
        exact ⟨fun _ => by decide, by decide⟩
      · by_cases h2 : streq u adminStr = true
        · cases pwFile with
          | none =>
              simp only [change_user, h, h1, h2]
              refine ⟨fun hex => ?_, ?_⟩
              · exact absurd hex (by simp [h1, h2])
              · simp [h1, h2]
                decide
          | some pw =>
              simp only [change_user, h, h1, h2]
              refine ⟨fun _ => ?_, ?_⟩
              · simp [h1, h2]
                decide
              · simp [h1, h2]
                decide
        · simp only [change_user, h, h1, h2]
          refine ⟨fun _ => ?_, ?_⟩
          · simp [h1, h2]
            decide
          · simp [h1, h2]
            decide

/-- C10 witness: running change_user on a switch-to-user command returns to
    the dispatcher and frees the username buffer exactly once, never the
    line buffer. -/
theorem c10_change_user_release_discipline_witness :
    (change_user ['2', ' ', 'u', 's', 'e', 'r'] [] none ADMIN_UID).exited = none ∧
    (allocCount (change_user ['2', ' ', 'u', 's', 'e', 'r'] [] none ADMIN_UID).events
        Buf.username = 1 ∧
      freeCount (change_user ['2', ' ', 'u', 's', 'e', 'r'] [] none ADMIN_UID).events
        Buf.username = 1 ∧
      allocCount (change_user ['2', ' ', 'u', 's', 'e', 'r'] [] none ADMIN_UID).events
        Buf.password =
        freeCount (change_user ['2', ' ', 'u', 's', 'e', 'r'] [] none ADMIN_UID).events
          Buf.password ∧
      freeCount (change_user ['2', ' ', 'u', 's', 'e', 'r'] [] none ADMIN_UID).events
        Buf.password ≤ 1) ∧
    freeCount (change_user ['2', ' ', 'u', 's', 'e', 'r'] [] none ADMIN_UID).events
      Buf.line = 0 :=
  ⟨by decide,
   (c10_change_user_release_discipline ['2', ' ', 'u', 's', 'e', 'r'] [] none ADMIN_UID).1
     (by decide),
   (c10_change_user_release_discipline ['2', ' ', 'u', 's', 'e', 'r'] [] none ADMIN_UID).2⟩

/-- C3: change-identity transitions: the correct secret for the
    administrative identity makes the role privileged; an incorrect secret
    leaves the role unchanged and the call returns normally with no other
    state change; requesting identity user always succeeds and sets the role
    to restricted from either prior state; any other requested identity —
    and an unparseable request — is rejected with no state change. -/
theorem c3_change_user_transitions (line typed : List Char)
    (pwFile : Option (List Char)) (pw : List Char) (uid : Nat) :
    (sscanf2 line = some adminStr → pwFile = some pw →
      streq (stripCRLF (fgets16 typed).1) (pw.take SIZE) = true →
      (change_user line typed pwFile uid).uid = ADMIN_UID ∧
      (change_user line typed pwFile uid).exited = none) ∧
    (sscanf2 line = some adminStr → pwFile = some pw →
      streq (stripCRLF (fgets16 typed).1) (pw.take SIZE) = false →
      (change_user line typed pwFile uid).uid = uid ∧
      (change_user line typed pwFile uid).exited = none) ∧
    (sscanf2 line = some userStr →
      (change_user line typed pwFile uid).uid = USER_UID ∧
      (change_user line typed pwFile uid).exited = none) ∧
    (∀ u : List Char, sscanf2 line = some u → u ≠ userStr → u ≠ adminStr →
      (change_user line typed pwFile uid).uid = uid ∧
      (change_user line typed pwFile uid).exited = none) ∧
    (sscanf2 line = none →
      (change_user line typed pwFile uid).uid = uid ∧
      (change_user line typed pwFile uid).exited = none) := by
  have hau : streq adminStr userStr = false := by decide
  have haa : streq adminStr adminStr = true := by decide
  refine ⟨?_, ?_, ?_, ?_, ?_⟩
  · intro h hp hs
    subst hp
    simp [change_user, h, hau, haa, hs]
  · intro h hp hs
    subst hp
    simp [change_user, h, hau, haa, hs]
  · intro h
    have huu : streq userStr userStr = true := strncmpEq_self SIZE userStr
    simp [change_user, h, huu]
  · intro u h hu ha
    have h1 : streq u userStr = false := streq_eq_false_of_ne u userStr (by decide) hu
    have h2 : streq u adminStr = false := streq_eq_false_of_ne u adminStr (by decide) ha
    simp [change_user, h, h1, h2]
  · intro h
    simp [change_user, h]

/-- C3 witness: concrete transitions — right secret pw, wrong secret x,
    switch to user, unknown identity bob. -/
theorem c3_change_user_transitions_witness :
    (sscanf2 ['2', ' ', 'a', 'd', 'm', 'i', 'n'] = some adminStr ∧
      streq (stripCRLF (fgets16 ['p', 'w', '\n']).1) ((['p', 'w'] : List Char).take SIZE)
        = true ∧
      (change_user ['2', ' ', 'a', 'd', 'm', 'i', 'n'] ['p', 'w', '\n'] (some ['p', 'w'])
        USER_UID).uid = ADMIN_UID) ∧
    (streq (stripCRLF (fgets16 ['x', '\n']).1) ((['p', 'w'] : List Char).take SIZE)
        = false ∧
      (change_user ['2', ' ', 'a', 'd', 'm', 'i', 'n'] ['x', '\n'] (some ['p', 'w'])
        USER_UID).uid = USER_UID) ∧
    (sscanf2 ['2', ' ', 'u', 's', 'e', 'r'] = some userStr ∧
      (change_user ['2', ' ', 'u', 's', 'e', 'r'] [] none ADMIN_UID).uid = USER_UID) ∧
    (sscanf2 ['2', ' ', 'b', 'o', 'b'] = some ['b', 'o', 'b'] ∧
      (change_user ['2', ' ', 'b', 'o', 'b'] [] none ADMIN_UID).uid = ADMIN_UID) :=
  ⟨⟨by decide, by decide,
    ((c3_change_user_transitions ['2', ' ', 'a', 'd', 'm', 'i', 'n'] ['p', 'w', '\n']
      (some ['p', 'w']) ['p', 'w'] USER_UID).1 (by decide) rfl (by decide)).1⟩,
   ⟨by decide,
    ((c3_change_user_transitions ['2', ' ', 'a', 'd', 'm', 'i', 'n'] ['x', '\n']
      (some ['p', 'w']) ['p', 'w'] USER_UID).2.1 (by decide) rfl (by decide)).1⟩,
   ⟨by decide,
    ((c3_change_user_transitions ['2', ' ', 'u', 's', 'e', 'r'] [] none ['p', 'w']
      ADMIN_UID).2.2.1 (by decide)).1⟩,
   ⟨by decide,
    ((c3_change_user_transitions ['2', ' ', 'b', 'o', 'b'] [] none ['p', 'w']
      ADMIN_UID).2.2.2.1 ['b', 'o', 'b'] (by decide) (by decide) (by decide)).1⟩⟩

/-- C4: when the role is restricted (uid is not the administrative one), the
    insert and wipe selectors leave the file, the role and the control flow
    untouched; conversely those selectors can change the store's content
    only when the role is privileged. -/
theorem c4_role_gating (inp : HCInput) (uid : Nat) (f : File) :
    ((atoi (fgets16 inp.line).1 = 4 ∨ atoi (fgets16 inp.line).1 = 5) →
      uid ≠ ADMIN_UID →
      (handle_choice inp uid f).file = f ∧ (handle_choice inp uid f).uid = uid ∧
      (handle_choice inp uid f).exited = none) ∧
    ((atoi (fgets16 inp.line).1 = 4 ∨ atoi (fgets16 inp.line).1 = 5) →
      (handle_choice inp uid f).file.data ≠ f.data → uid = ADMIN_UID) := by
  have hmain : (atoi (fgets16 inp.line).1 = 4 ∨ atoi (fgets16 inp.line).1 = 5) →
      uid ≠ ADMIN_UID →
      (handle_choice inp uid f).file = f ∧ (handle_choice inp uid f).uid = uid ∧
      (handle_choice inp uid f).exited = none := by
    intro h45 hu
    rcases h45 with h | h
    · simp only [handle_choice]
      simp +decide [h, hu]
    · simp only [handle_choice]
      simp +decide [h, hu]
  refine ⟨hmain, fun h45 hne => ?_⟩
  by_contra hu
  rcases hmain h45 hu with ⟨hf, -, -⟩
  rw [hf] at hne
  exact hne rfl

/-- C4 witness: a restricted session issuing insert changes nothing. -/
theorem c4_role_gating_witness :
    (atoi (fgets16 (['4', ' ', 'x', '\n'] : List Char)).1 = 4 ∨
      atoi (fgets16 (['4', ' ', 'x', '\n'] : List Char)).1 = 5) ∧
    USER_UID ≠ ADMIN_UID ∧
    ((handle_choice
      { line := ['4', ' ', 'x', '\n'], typed := [], pwFile := none, confirm := [],
        qbuf0 := { id := 0, name := [] } } USER_UID emptyFile).file = emptyFile ∧
     (handle_choice
      { line := ['4', ' ', 'x', '\n'], typed := [], pwFile := none, confirm := [],
        qbuf0 := { id := 0, name := [] } } USER_UID emptyFile).uid = USER_UID ∧
     (handle_choice
      { line := ['4', ' ', 'x', '\n'], typed := [], pwFile := none, confirm := [],
        qbuf0 := { id := 0, name := [] } } USER_UID emptyFile).exited = none) :=
  ⟨Or.inl (by decide), by decide,
   (c4_role_gating
     { line := ['4', ' ', 'x', '\n'], typed := [], pwFile := none, confirm := [],
       qbuf0 := { id := 0, name := [] } } USER_UID emptyFile).1
     (Or.inl (by decide)) (by decide)⟩

/-- C6: round trip.  Inserting a record whose (well-formed, non-wildcard)
    name matches no record already in the store and then querying for that
    exact name returns exactly one row, carrying the same id and name as the
    record just inserted; and querying the wildcard after any run of
    successful inserts from the empty store returns the store's rows in
    full, in insertion order — one per insert. -/
theorem c6_round_trip :
    (∀ (insLine qLine nm : List Char) (buf0 : DBEntry) (f : File),
      sscanf2 insLine = some nm → sscanf2 qLine = some nm →
      nm.length ≤ SIZE - 1 → nm ≠ ['*'] →
      (∀ e ∈ f.data, streq e.name nm = false) →
      (insert_into_db insLine f).1.data =
        f.data ++ [{ id := f.data.length % 256, name := nm }] ∧
      (select_from_db qLine buf0 (insert_into_db insLine f).1).2.1 =
        [{ id := f.data.length % 256, name := nm }]) ∧
    (∀ (ls : List (List Char)) (qLine : List Char) (buf0 : DBEntry),
      (∀ l ∈ ls, (sscanf2 l).isSome) → sscanf2 qLine = some ['*'] →
      (select_from_db qLine buf0 (insertSeq ls emptyFile)).2.1 =
        (insertSeq ls emptyFile).data ∧
      (insertSeq ls emptyFile).data.length = ls.length) := by
  constructor
  · intro insLine qLine nm buf0 f hins hq hlen hwild hfresh
    have htake : nm.take (SIZE - 1) = nm := List.take_of_length_le hlen
    have hf1 := insert_valid insLine nm f hins
    rw [htake] at hf1
    have hwild' : streq nm ['*'] = false := streq_eq_false_of_ne nm ['*'] (by decide) hwild
    have hself : streq nm nm = true := strncmpEq_self SIZE nm
    refine ⟨by rw [hf1], ?_⟩
    have hold : f.data.filter (fun e => streq nm ['*'] || streq e.name nm) = [] := by
      rw [List.filter_eq_nil_iff]
      intro e he
      simp [hwild', hfresh e he]
    rw [select_rows qLine nm buf0 _ hq, hf1, List.filter_append, hold]
    simp [List.filter_cons, hwild', hself]
  · intro ls qLine buf0 hv hq
    have hlen := insertSeq_length ls emptyFile hv
    have hstar : streq (['*'] : List Char) ['*'] = true := by decide
    refine ⟨?_, by simpa [emptyFile] using hlen⟩
    rw [select_rows qLine ['*'] buf0 _ hq]
    simp [hstar]

/-- C6 witness: insert ab into the empty store, query ab back, and query the
    wildcard after one insert. -/
theorem c6_round_trip_witness :
    (sscanf2 ['4', ' ', 'a', 'b'] = some ['a', 'b'] ∧
      sscanf2 ['3', ' ', 'a', 'b'] = some ['a', 'b'] ∧
      (select_from_db ['3', ' ', 'a', 'b'] { id := 0, name := [] }
        (insert_into_db ['4', ' ', 'a', 'b'] emptyFile).1).2.1 =
        [{ id := emptyFile.data.length % 256, name := ['a', 'b'] }]) ∧
    (sscanf2 ['3', ' ', '*'] = some ['*'] ∧
      (select_from_db ['3', ' ', '*'] { id := 0, name := [] }
        (insertSeq [['4', ' ', 'a']] emptyFile)).2.1 =
        (insertSeq [['4', ' ', 'a']] emptyFile).data ∧
      (insertSeq [['4', ' ', 'a']] emptyFile).data.length = [['4', ' ', 'a']].length) :=
  ⟨⟨by decide, by decide,
    (c6_round_trip.1 ['4', ' ', 'a', 'b'] ['3', ' ', 'a', 'b'] ['a', 'b']
      { id := 0, name := [] } emptyFile (by decide) (by decide) (by decide) (by decide)
      (by decide)).2⟩,
   ⟨by decide,
    (c6_round_trip.2 [['4', ' ', 'a']] ['3', ' ', '*'] { id := 0, name := [] }
      (by intro l hl; simp at hl; rw [hl]; decide) (by decide)).1,
    (c6_round_trip.2 [['4', ' ', 'a']] ['3', ' ', '*'] { id := 0, name := [] }
      (by intro l hl; simp at hl; rw [hl]; decide) (by decide)).2⟩⟩

/-- C7: on the change-identity flow that reaches the credential comparison
    (admin identity requested, secret file opened), both the password buffer
    holding the reference secret and the reused line buffer that held the
    typed secret are zeroed — memset to SIZE zero bytes — before their
    respective releases, whatever the outcome of the comparison: the zeroing
    events precede the free events in the iteration's trace, and both
    buffers hold all-zero bytes at the moment they are freed. -/
theorem c7_secret_buffers_zeroed (inp : HCInput) (uid : Nat) (f : File) (pw : List Char)
    (h2 : atoi (fgets16 inp.line).1 = 2)
    (ha : sscanf2 (fgets16 inp.line).1 = some adminStr)
    (hpw : inp.pwFile = some pw) :
    evBefore (Ev.zero Buf.password) (Ev.free Buf.password)
      (handle_choice inp uid f).events ∧
    evBefore (Ev.zero Buf.line) (Ev.free Buf.line) (handle_choice inp uid f).events ∧
    (handle_choice inp uid f).pwBufAtFree = some zeroBuf16 ∧
    (handle_choice inp uid f).lineBufAtFree = some zeroBuf16 := by
  have hau : streq adminStr userStr = false := by decide
  have haa : streq adminStr adminStr = true := by decide
  have hcu : change_user (fgets16 inp.line).1 inp.typed inp.pwFile uid =
      { uid := if streq (stripCRLF (fgets16 inp.typed).1) (pw.take SIZE) then ADMIN_UID
          else uid,
        events := [Ev.alloc Buf.username, Ev.alloc Buf.password, Ev.zero Buf.password,
                   Ev.zero Buf.line, Ev.free Buf.password, Ev.free Buf.username],
        exited := none, pwBufFinal := some zeroBuf16, lineBufFinal := zeroBuf16 } := by
    rw [hpw]
    simp [change_user, ha, hau, haa]
  have hres : (handle_choice inp uid f).events =
      [Ev.alloc Buf.line, Ev.alloc Buf.username, Ev.alloc Buf.password,
       Ev.zero Buf.password, Ev.zero Buf.line, Ev.free Buf.password,
       Ev.free Buf.username, Ev.free Buf.line] ∧
      (handle_choice inp uid f).pwBufAtFree = some zeroBuf16 ∧
      (handle_choice inp uid f).lineBufAtFree = some zeroBuf16 := by
    simp only [handle_choice]
    simp +decide [h2, hcu]
  refine ⟨?_, ?_, hres.2.1, hres.2.2⟩
  · exact ⟨3, 5, by omega, by rw [hres.1]; rfl, by rw [hres.1]; rfl⟩
  · exact ⟨4, 7, by omega, by rw [hres.1]; rfl, by rw [hres.1]; rfl⟩

/-- C7 witness: the admin path with secret pw, typed correctly. -/
theorem c7_secret_buffers_zeroed_witness :
    (atoi (fgets16 (['2', ' ', 'a', 'd', 'm', 'i', 'n', '\n'] : List Char)).1 = 2 ∧
      sscanf2 (fgets16 (['2', ' ', 'a', 'd', 'm', 'i', 'n', '\n'] : List Char)).1 =
        some adminStr) ∧
    (evBefore (Ev.zero Buf.password) (Ev.free Buf.password)
      (handle_choice
        { line := ['2', ' ', 'a', 'd', 'm', 'i', 'n', '\n'], typed := ['p', 'w', '\n'],
          pwFile := some ['p', 'w'], confirm := [], qbuf0 := { id := 0, name := [] } }
        USER_UID emptyFile).events ∧
     evBefore (Ev.zero Buf.line) (Ev.free Buf.line)
      (handle_choice
        { line := ['2', ' ', 'a', 'd', 'm', 'i', 'n', '\n'], typed := ['p', 'w', '\n'],
          pwFile := some ['p', 'w'], confirm := [], qbuf0 := { id := 0, name := [] } }
        USER_UID emptyFile).events ∧
     (handle_choice
        { line := ['2', ' ', 'a', 'd', 'm', 'i', 'n', '\n'], typed := ['p', 'w', '\n'],
          pwFile := some ['p', 'w'], confirm := [], qbuf0 := { id := 0, name := [] } }
        USER_UID emptyFile).pwBufAtFree = some zeroBuf16 ∧
     (handle_choice
        { line := ['2', ' ', 'a', 'd', 'm', 'i', 'n', '\n'], typed := ['p', 'w', '\n'],
          pwFile := some ['p', 'w'], confirm := [], qbuf0 := { id := 0, name := [] } }
        USER_UID emptyFile).lineBufAtFree = some zeroBuf16) :=
  ⟨⟨by decide, by decide⟩,
   c7_secret_buffers_zeroed
     { line := ['2', ' ', 'a', 'd', 'm', 'i', 'n', '\n'], typed := ['p', 'w', '\n'],
       pwFile := some ['p', 'w'], confirm := [], qbuf0 := { id := 0, name := [] } }
     USER_UID emptyFile ['p', 'w'] (by decide) (by decide) rfl⟩

/-- C9: the query selector is effect free on everything but its own output:
    for every input line routed to select_from_db, the file's contents (and
    hence its length) and the role state are unchanged, and the iteration
    returns to the dispatcher loop. -/
theorem c9_select_frame (inp : HCInput) (uid : Nat) (f : File)
    (h3 : atoi (fgets16 inp.line).1 = 3) :
    (handle_choice inp uid f).file.data = f.data ∧
    (handle_choice inp uid f).uid = uid ∧
    (handle_choice inp uid f).exited = none := by
  simp only [handle_choice]
  simp +decide [h3, select_data]

/-- C9 witness: a concrete query against a one-record store. -/
theorem c9_select_frame_witness :
    atoi (fgets16 (['3', ' ', 'a', '\n'] : List Char)).1 = 3 ∧
    ((handle_choice
      { line := ['3', ' ', 'a', '\n'], typed := [], pwFile := none, confirm := [],
        qbuf0 := { id := 0, name := [] } } ADMIN_UID
      { data := [{ id := 0, name := ['a'] }], pos := 0 }).file.data =
        [{ id := 0, name := ['a'] }] ∧
     (handle_choice
      { line := ['3', ' ', 'a', '\n'], typed := [], pwFile := none, confirm := [],
        qbuf0 := { id := 0, name := [] } } ADMIN_UID
      { data := [{ id := 0, name := ['a'] }], pos := 0 }).uid = ADMIN_UID ∧
     (handle_choice
      { line := ['3', ' ', 'a', '\n'], typed := [], pwFile := none, confirm := [],
        qbuf0 := { id := 0, name := [] } } ADMIN_UID
      { data := [{ id := 0, name := ['a'] }], pos := 0 }).exited = none) :=
  ⟨by decide,
   c9_select_frame
     { line := ['3', ' ', 'a', '\n'], typed := [], pwFile := none, confirm := [],
       qbuf0 := { id := 0, name := [] } } ADMIN_UID
     { data := [{ id := 0, name := ['a'] }], pos := 0 } (by decide)⟩

/-- C8: exit codes.  An iteration exits with status 0 exactly when the quit
    selector 1 was parsed; it exits with status 1 exactly when the
    change-identity selector requested the administrative identity and the
    secret file could not be opened; no other exit is possible from an
    iteration; and startup exits with status 1 exactly when the record file
    cannot be opened. -/
theorem c8_exit_codes (inp : HCInput) (uid : Nat) (f : File) :
    ((handle_choice inp uid f).exited = some 0 ↔ atoi (fgets16 inp.line).1 = 1) ∧
    ((handle_choice inp uid f).exited = some 1 ↔
      (atoi (fgets16 inp.line).1 = 2 ∧ sscanf2 (fgets16 inp.line).1 = some adminStr ∧
        inp.pwFile = none)) ∧
    ((handle_choice inp uid f).exited = none ∨
      (handle_choice inp uid f).exited = some 0 ∨
      (handle_choice inp uid f).exited = some 1) ∧
    (∀ ok : Bool, main_open ok = some 1 ↔ ok = false) := by
  have hmo : ∀ ok : Bool, main_open ok = some 1 ↔ ok = false := by
    intro ok
    cases ok <;> simp [main_open]
  by_cases h1 : atoi (fgets16 inp.line).1 = 1
  · have hsome : (handle_choice inp uid f).exited = some 0 := by
      simp only [handle_choice]
      simp +decide [h1]
    refine ⟨⟨fun _ => h1, fun _ => hsome⟩, ?_, Or.inr (Or.inl hsome), hmo⟩
    rw [hsome]
    constructor
    · intro hc
      exact absurd hc (by simp)
    · rintro ⟨hA, -, -⟩
      rw [h1] at hA
      exact absurd hA (by decide)
  · by_cases h2 : atoi (fgets16 inp.line).1 = 2
    · have hexeq : (handle_choice inp uid f).exited =
          (change_user (fgets16 inp.line).1 inp.typed inp.pwFile uid).exited := by
        simp only [handle_choice]
        simp +decide [h2]
        cases hce : (change_user (fgets16 inp.line).1 inp.typed inp.pwFile uid).exited <;>
          simp [hce]
      obtain ⟨hiff, hor⟩ :=
        change_user_exited (fgets16 inp.line).1 inp.typed inp.pwFile uid
      refine ⟨?_, ?_, ?_, hmo⟩
      · rw [hexeq]
        constructor
        · intro h0
          rcases hor with hn | ho
          · rw [hn] at h0
            exact absurd h0 (by simp)
          · rw [ho] at h0
            exact absurd h0 (by simp)
        · intro hh
          rw [hh] at h2
          exact absurd h2 (by decide)
      · rw [hexeq, hiff]
        simp [h2]
      · rw [hexeq]
        rcases hor with hn | ho
        · exact Or.inl hn
        · exact Or.inr (Or.inr ho)
    · have hnone : (handle_choice inp uid f).exited = none := by
        by_cases h3 : atoi (fgets16 inp.line).1 = 3
        · simp only [handle_choice]
          simp +decide [h3]
        · by_cases h4 : atoi (fgets16 inp.line).1 = 4
          · simp only [handle_choice]
            simp +decide [h4]
            by_cases hu : uid = ADMIN_UID <;> simp [hu]
          · by_cases h5 : atoi (fgets16 inp.line).1 = 5
            · simp only [handle_choice]
              simp +decide [h5]
              by_cases hu : uid = ADMIN_UID <;> simp [hu]
            · simp only [handle_choice]
              simp [h1, h2, h3, h4, h5]
      refine ⟨?_, ?_, Or.inl hnone, hmo⟩
      · rw [hnone]
        simp [h1]
      · rw [hnone]
        simp [h2]

